import Mathlib

/-!
Verification of the stanley-kaleidoscope transform engine.

Shallow embedding of src/kaleidoscope.py (the pure NumPy transform engine),
src/worker.py (the render worker) and the parameter plumbing of src/app.py.
Pixel buffers are modelled as total functions from integer row/column and a
channel index to natural-number channel values; the float64 arithmetic of the
source is modelled by exact real arithmetic.
-/

open Real

namespace Kaleidoscope

/-- Model of the NumPy floating modulo v % p, namely v - p * floor (v / p);
for p > 0 the result lies in [0, p).  Used by the mirror folds and by the
radial angle normalisation. -/
noncomputable def fmod (v p : ℝ) : ℝ := v - p * (⌊v / p⌋ : ℤ)

/-- Model of kaleidoscope._mirror_fold: triangle-wave fold of v with the given
period; v_mod = v % period, and the result is v_mod when it is at most half
the period and period - v_mod otherwise. -/
noncomputable def mirror_fold (v period : ℝ) : ℝ :=
  let v_mod := fmod v period
  if v_mod ≤ period * 0.5 then v_mod else period - v_mod

/-- Model of numpy.clip on floats: maximum with the lower bound first, then
minimum with the upper bound, so that the upper bound wins when lo > hi. -/
noncomputable def clip (x lo hi : ℝ) : ℝ := min (max x lo) hi

/-- Model of numpy.clip on integer indices (same composition order). -/
def clipZ (i lo hi : ℤ) : ℤ := min (max i lo) hi

/-- Cast of a colour value to uint8 at the end of _bilinear_sample:
astype(np.uint8) truncates toward zero, which is the floor on the nonnegative
convex blends the sampler produces. -/
noncomputable def toByte (x : ℝ) : ℕ := (⌊x⌋).toNat

/-- Pixel buffer of shape h × w × c: the dimensions together with a total
function from (row, column, channel) to the stored uint8 channel value.
Models a row-major numpy array indexed as source[y, x, ch]. -/
structure Buffer where
  h : ℕ
  w : ℕ
  c : ℕ
  pix : ℤ → ℤ → ℕ → ℕ

/-- Lower neighbour index of _bilinear_sample: x0 = floor of the sampling
coordinate clamped into [0, dim - 1.001] (and likewise y0 with the height). -/
noncomputable def sample_lo (dim : ℕ) (s : ℝ) : ℤ := ⌊clip s 0 ((dim : ℝ) - 1.001)⌋

/-- Upper neighbour index of _bilinear_sample: x1 = np.clip (x0 + 1, 0, dim - 1). -/
noncomputable def sample_hi (dim : ℕ) (s : ℝ) : ℤ :=
  clipZ (sample_lo dim s + 1) 0 ((dim : ℤ) - 1)

/-- Fractional interpolation weight of _bilinear_sample: fx = sx_c - x0. -/
noncomputable def sample_frac (dim : ℕ) (s : ℝ) : ℝ :=
  clip s 0 ((dim : ℝ) - 1.001) - (sample_lo dim s : ℤ)

/-- Model of kaleidoscope._bilinear_sample: edge-clamped bilinear
interpolation, blending the four integer neighbours of (sx, sy) by the
fractional weights and casting back to uint8, one channel at a time. -/
noncomputable def bilinear_sample (source : ℤ → ℤ → ℕ → ℕ) (sx sy : ℝ)
    (src_w src_h : ℕ) (ch : ℕ) : ℕ :=
  let x0 := sample_lo src_w sx
  let y0 := sample_lo src_h sy
  let x1 := sample_hi src_w sx
  let y1 := sample_hi src_h sy
  let fx := sample_frac src_w sx
  let fy := sample_frac src_h sy
  toByte ((source y0 x0 ch : ℕ) * (1 - fx) * (1 - fy)
    + (source y0 x1 ch : ℕ) * fx * (1 - fy)
    + (source y1 x0 ch : ℕ) * (1 - fx) * fy
    + (source y1 x1 ch : ℕ) * fx * fy)

/-- Model of kaleidoscope._rotate: rotate (dx, dy) by angle_deg degrees, with
the early return of the source for angle 0. -/
noncomputable def rotate (dx dy angle_deg : ℝ) : ℝ × ℝ :=
  if angle_deg = 0 then (dx, dy)
  else
    (dx * Real.cos (angle_deg * π / 180) - dy * Real.sin (angle_deg * π / 180),
     dx * Real.sin (angle_deg * π / 180) + dy * Real.cos (angle_deg * π / 180))

/-- Output dimensions (out_w, out_h): the requested output size, or the source
dimensions when absent (_common_setup and apply_kaleidoscope). -/
def out_dims (src : Buffer) (output_size : Option (ℕ × ℕ)) : ℕ × ℕ :=
  output_size.getD (src.w, src.h)

/-- Offset grid of kaleidoscope._common_setup at one output pixel: centre the
pixel coordinate, divide by zoom, rotate by rotation_deg. -/
noncomputable def common_offset (out_w out_h : ℕ) (rotation_deg zoom : ℝ)
    (x y : ℤ) : ℝ × ℝ :=
  rotate (((x : ℝ) - (out_w : ℝ) / 2) / zoom) (((y : ℝ) - (out_h : ℝ) / 2) / zoom)
    rotation_deg

/-- Source sampling centre of _common_setup, from the centre percentages. -/
noncomputable def src_center (src : Buffer) (center_x_pct center_y_pct : ℝ) : ℝ × ℝ :=
  (center_x_pct / 100 * (src.w : ℕ), center_y_pct / 100 * (src.h : ℕ))

/-- Model of np.arctan2 via the complex argument: atan2 y x is the argument
of the complex number with real part x and imaginary part y, in (-π, π]. -/
noncomputable def atan2 (y x : ℝ) : ℝ := Complex.arg ⟨x, y⟩

/-- Sampling coordinates of apply_kaleidoscope (the radial mode) at one output
pixel: polar coordinates of the raw centred offsets, rotation added to the
angle and normalised into [0, 2π), wedge fold by modulo with a mirror
reflection past the half segment, and division by zoom only in the map back
to Cartesian. -/
noncomputable def radial_sample (src_w src_h : ℕ)
    (num_segments rotation_deg zoom center_x_pct center_y_pct : ℝ)
    (out_w out_h : ℕ) (x y : ℤ) : ℝ × ℝ :=
  let cx_src := center_x_pct / 100 * (src_w : ℝ)
  let cy_src := center_y_pct / 100 * (src_h : ℝ)
  let dx := (x : ℝ) - (out_w : ℝ) / 2
  let dy := (y : ℝ) - (out_h : ℝ) / 2
  let r := Real.sqrt (dx * dx + dy * dy)
  let theta := fmod (atan2 dy dx + rotation_deg * π / 180) (2 * π)
  let segment_angle := 2 * π / num_segments
  let theta_norm := fmod theta segment_angle
  let theta_f := if segment_angle / 2 < theta_norm then segment_angle - theta_norm
    else theta_norm
  let r_zoomed := r / zoom
  (r_zoomed * Real.cos theta_f + cx_src, r_zoomed * Real.sin theta_f + cy_src)

/-- Model of kaleidoscope.apply_kaleidoscope: the classic radial N-segment
mirror-wedge mode. -/
noncomputable def apply_kaleidoscope (source : Buffer)
    (num_segments rotation_deg zoom center_x_pct center_y_pct : ℝ)
    (output_size : Option (ℕ × ℕ)) : Buffer :=
  let out_w := (out_dims source output_size).1
  let out_h := (out_dims source output_size).2
  ⟨out_h, out_w, source.c, fun y x ch =>
    let s := radial_sample source.w source.h num_segments rotation_deg zoom
      center_x_pct center_y_pct out_w out_h x y
    bilinear_sample source.pix s.1 s.2 source.w source.h ch⟩

/-- Model of kaleidoscope.apply_rectangle: independent mirror folds of the two
offsets, with tile width a percentage of the smaller source dimension and tile
height scaled by the aspect ratio. -/
noncomputable def apply_rectangle (source : Buffer)
    (tile_size_pct tile_aspect rotation_deg zoom center_x_pct center_y_pct : ℝ)
    (output_size : Option (ℕ × ℕ)) : Buffer :=
  let out_w := (out_dims source output_size).1
  let out_h := (out_dims source output_size).2
  let cx_src := (src_center source center_x_pct center_y_pct).1
  let cy_src := (src_center source center_x_pct center_y_pct).2
  let min_dim := min source.w source.h
  let tile_w := tile_size_pct / 100 * (min_dim : ℝ)
  let tile_h := tile_w * tile_aspect
  ⟨out_h, out_w, source.c, fun y x ch =>
    let d := common_offset out_w out_h rotation_deg zoom x y
    bilinear_sample source.pix (cx_src + mirror_fold d.1 tile_w)
      (cy_src + mirror_fold d.2 tile_h) source.w source.h ch⟩

/-- Model of kaleidoscope.apply_triangle_45: mirror folds with a common period
followed by the diagonal fold that swaps the coordinates where tx < ty. -/
noncomputable def apply_triangle_45 (source : Buffer)
    (tile_size_pct rotation_deg zoom center_x_pct center_y_pct : ℝ)
    (output_size : Option (ℕ × ℕ)) : Buffer :=
  let out_w := (out_dims source output_size).1
  let out_h := (out_dims source output_size).2
  let cx_src := (src_center source center_x_pct center_y_pct).1
  let cy_src := (src_center source center_x_pct center_y_pct).2
  let tile_s := tile_size_pct / 100 * ((min source.w source.h : ℕ) : ℝ)
  ⟨out_h, out_w, source.c, fun y x ch =>
    let d := common_offset out_w out_h rotation_deg zoom x y
    let tx := mirror_fold d.1 tile_s
    let ty := mirror_fold d.2 tile_s
    let tx_f := if tx < ty then ty else tx
    let ty_f := if tx < ty then tx else ty
    bilinear_sample source.pix (cx_src + tx_f) (cy_src + ty_f)
      source.w source.h ch⟩

/-- Fold step of apply_triangle_60: take the fractional parts of the lattice
coordinates and reflect the upper triangle (u_frac + v_frac ≥ 1) across the
shared edge via the map sending (u, v) to (1 - v, 1 - u). -/
noncomputable def tri60_fold (u_lat v_lat : ℝ) : ℝ × ℝ :=
  let u_frac := u_lat - (⌊u_lat⌋ : ℤ)
  let v_frac := v_lat - (⌊v_lat⌋ : ℤ)
  if 1 ≤ u_frac + v_frac then (1 - v_frac, 1 - u_frac) else (u_frac, v_frac)

/-- Model of kaleidoscope.apply_triangle_60: express the offsets in the
triangular lattice basis, fold into the lower unit triangle, and convert the
folded lattice coordinates back to Cartesian source offsets. -/
noncomputable def apply_triangle_60 (source : Buffer)
    (tile_size_pct rotation_deg zoom center_x_pct center_y_pct : ℝ)
    (output_size : Option (ℕ × ℕ)) : Buffer :=
  let out_w := (out_dims source output_size).1
  let out_h := (out_dims source output_size).2
  let cx_src := (src_center source center_x_pct center_y_pct).1
  let cy_src := (src_center source center_x_pct center_y_pct).2
  let s := tile_size_pct / 100 * ((min source.w source.h : ℕ) : ℝ)
  ⟨out_h, out_w, source.c, fun y x ch =>
    let d := common_offset out_w out_h rotation_deg zoom x y
    let v_lat := d.2 * 2 / (s * Real.sqrt 3)
    let u_lat := d.1 / s - v_lat * 0.5
    let f := tri60_fold u_lat v_lat
    let tx := f.1 * s + f.2 * s * 0.5
    let ty := f.2 * s * Real.sqrt 3 * 0.5
    bilinear_sample source.pix (cx_src + tx) (cy_src + ty)
      source.w source.h ch⟩

/-- Model of kaleidoscope.apply_triangle_30_60: mirror folds with periods
tile_w and tile_w √3, then reflection across the hypotenuse of the half
rectangle for points beyond it. -/
noncomputable def apply_triangle_30_60 (source : Buffer)
    (tile_size_pct rotation_deg zoom center_x_pct center_y_pct : ℝ)
    (output_size : Option (ℕ × ℕ)) : Buffer :=
  let out_w := (out_dims source output_size).1
  let out_h := (out_dims source output_size).2
  let cx_src := (src_center source center_x_pct center_y_pct).1
  let cy_src := (src_center source center_x_pct center_y_pct).2
  let tile_w := tile_size_pct / 100 * ((min source.w source.h : ℕ) : ℝ)
  let tile_h := tile_w * Real.sqrt 3
  ⟨out_h, out_w, source.c, fun y x ch =>
    let dxy := common_offset out_w out_h rotation_deg zoom x y
    let tx := mirror_fold dxy.1 tile_w
    let ty := mirror_fold dxy.2 tile_h
    let A := 2 / tile_w
    let B := 2 / tile_h
    let AB2 := A * A + B * B
    let d := A * tx + B * ty - 1
    let tx_r := tx - 2 * A * d / AB2
    let ty_r := ty - 2 * B * d / AB2
    let tx_f := if 0 < d then tx_r else tx
    let ty_f := if 0 < d then ty_r else ty
    bilinear_sample source.pix (cx_src + tx_f) (cy_src + ty_f)
      source.w source.h ch⟩

/-- Parameter dictionary value: the params dict of the application holds the
mode tag (a string) next to numeric values. -/
inductive PVal where
  | num (x : ℝ)
  | str (s : String)

/-- Parameter dictionary, in insertion order. -/
abbrev Params := List (String × PVal)

/-- Dictionary lookup params.get(key), as an Option. -/
def pget (p : Params) (k : String) : Option PVal :=
  (p.find? (fun kv => kv.1 == k)).map (fun kv => kv.2)

/-- Numeric dictionary lookup: some value exactly when the key is present
with a numeric value. -/
def pgetNum (p : Params) (k : String) : Option ℝ :=
  match pget p k with
  | some (PVal.num x) => some x
  | _ => none

/-- Model of the module-level MODES registry of kaleidoscope.py, mapping each
known mode tag to its display name. -/
def MODES : List (String × String) :=
  [("radial", "Radial"),
   ("rectangle", "Rectangle"),
   ("triangle_45", "Triangle 45-45-90"),
   ("triangle_60", "Triangle 60-60-60"),
   ("triangle_30_60", "Triangle 30-60-90")]

/-- Model of kaleidoscope.apply_effect: read the shared parameters with their
defaults, dispatch on the mode tag, and reject an unknown tag with an error
(ValueError in the source). -/
noncomputable def apply_effect (mode : String) (source : Buffer) (params : Params)
    (output_size : Option (ℕ × ℕ)) : Except String Buffer :=
  let r := (pgetNum params "rotation_deg").getD 0
  let z := (pgetNum params "zoom").getD 1
  let cx := (pgetNum params "center_x_pct").getD 50
  let cy := (pgetNum params "center_y_pct").getD 50
  if mode = "radial" then
    Except.ok (apply_kaleidoscope source ((pgetNum params "num_segments").getD 8)
      r z cx cy output_size)
  else
    let ts := (pgetNum params "tile_size_pct").getD 50
    if mode = "rectangle" then
      Except.ok (apply_rectangle source ts ((pgetNum params "tile_aspect").getD 1)
        r z cx cy output_size)
    else if mode = "triangle_45" then
      Except.ok (apply_triangle_45 source ts r z cx cy output_size)
    else if mode = "triangle_60" then
      Except.ok (apply_triangle_60 source ts r z cx cy output_size)
    else if mode = "triangle_30_60" then
      Except.ok (apply_triangle_30_60 source ts r z cx cy output_size)
    else Except.error (String.append "Unknown mode: " mode)

/-- Strict dictionary access params[key] as performed by worker.py: a missing
key raises KeyError, which the worker surfaces as an error message. -/
def lookup_strict (p : Params) (k : String) : Except String ℝ :=
  match pgetNum p k with
  | some v => Except.ok v
  | none => Except.error (String.append "KeyError: " k)

/-- Model of the compute expression inside KaleidoscopeWorker.run: whatever
the mode of the job, it invokes apply_kaleidoscope (the radial transform) and
reads the five radial parameters with strict dictionary access, in the
evaluation order of the keyword arguments of the call. -/
noncomputable def worker_compute (source : Buffer) (params : Params)
    (output_size : Option (ℕ × ℕ)) : Except String Buffer := do
  let ns ← lookup_strict params "num_segments"
  let r ← lookup_strict params "rotation_deg"
  let z ← lookup_strict params "zoom"
  let cx ← lookup_strict params "center_x_pct"
  let cy ← lookup_strict params "center_y_pct"
  Except.ok (apply_kaleidoscope source ns r z cx cy output_size)

/-- Observable events of one execution of KaleidoscopeWorker.run. -/
inductive TEvent where
  | computeCall
  | checkCancel (flag : Bool)
  | emitResult (img : Buffer)
  | emitError (msg : String)

/-- Model of KaleidoscopeWorker.run: nothing happens without a configured
source; otherwise the engine is invoked, and on success the cancellation flag
is read once (flag is its value at that single read, which follows the
compute call) to decide between emitting the result and dropping it; an
exception from the compute expression is emitted as an error. -/
noncomputable def worker_trace (source : Option Buffer) (params : Params)
    (output_size : Option (ℕ × ℕ)) (flag : Bool) : List TEvent :=
  match source with
  | none => []
  | some src =>
    TEvent.computeCall ::
      (match worker_compute src params output_size with
       | Except.error e => [TEvent.emitError e]
       | Except.ok img =>
          TEvent.checkCancel flag ::
            (if flag then [] else [TEvent.emitResult img]))

/-- Model of MainWindow._current_params of app.py: the dictionary built from
the slider positions for the current mode.  Slider integers are converted as
in the source (tenths of a degree, hundredths of a zoom unit, tenths of a
percent); num_segments is present only for the radial mode, tile_size_pct
only for the other modes and tile_aspect only for rectangle. -/
noncomputable def current_params (mode : String)
    (param1 param2 rot zoomv cx cy : ℤ) : Params :=
  [("mode", PVal.str mode),
   ("rotation_deg", PVal.num ((rot : ℝ) / 10)),
   ("zoom", PVal.num ((zoomv : ℝ) / 100)),
   ("center_x_pct", PVal.num ((cx : ℝ) / 10)),
   ("center_y_pct", PVal.num ((cy : ℝ) / 10))]
  ++ (if mode = "radial" then [("num_segments", PVal.num (param1 : ℝ))]
      else ("tile_size_pct", PVal.num (param1 : ℝ)) ::
        (if mode = "rectangle" then [("tile_aspect", PVal.num ((param2 : ℝ) / 100))]
         else []))

/-- Dictionary with every engine parameter key filled in explicitly: the
value from params when the key is present, its fixed default otherwise. -/
noncomputable def with_defaults (p : Params) : Params :=
  [("rotation_deg", PVal.num ((pgetNum p "rotation_deg").getD 0)),
   ("zoom", PVal.num ((pgetNum p "zoom").getD 1)),
   ("center_x_pct", PVal.num ((pgetNum p "center_x_pct").getD 50)),
   ("center_y_pct", PVal.num ((pgetNum p "center_y_pct").getD 50)),
   ("num_segments", PVal.num ((pgetNum p "num_segments").getD 8)),
   ("tile_size_pct", PVal.num ((pgetNum p "tile_size_pct").getD 50)),
   ("tile_aspect", PVal.num ((pgetNum p "tile_aspect").getD 1))]

/-- Pipeline prescribed by the specification for the radial mode: the common
setup divides the centred offsets by zoom and rotates them by rotation_deg
(plain rotation formula, following the words of the spec), and the polar
wedge fold is then applied to the resulting offsets: angle normalised into
[0, 2π), folded into one wedge by modulo, mirror-reflected past the half
segment, and mapped back to Cartesian at the same radius. -/
noncomputable def spec_radial_sample (src_w src_h : ℕ)
    (num_segments rotation_deg zoom center_x_pct center_y_pct : ℝ)
    (out_w out_h : ℕ) (x y : ℤ) : ℝ × ℝ :=
  let cx_src := center_x_pct / 100 * (src_w : ℝ)
  let cy_src := center_y_pct / 100 * (src_h : ℝ)
  let rad := rotation_deg * π / 180
  let dx0 := ((x : ℝ) - (out_w : ℝ) / 2) / zoom
  let dy0 := ((y : ℝ) - (out_h : ℝ) / 2) / zoom
  let dx := dx0 * Real.cos rad - dy0 * Real.sin rad
  let dy := dx0 * Real.sin rad + dy0 * Real.cos rad
  let r := Real.sqrt (dx * dx + dy * dy)
  let theta := fmod (atan2 dy dx) (2 * π)
  let segment_angle := 2 * π / num_segments
  let theta_norm := fmod theta segment_angle
  let theta_f := if segment_angle / 2 < theta_norm then segment_angle - theta_norm
    else theta_norm
  (r * Real.cos theta_f + cx_src, r * Real.sin theta_f + cy_src)

/- Basic facts about fmod and mirror_fold. -/

theorem fmod_eq_mul_fract (v p : ℝ) (hp : p ≠ 0) :
    fmod v p = p * Int.fract (v / p) := by
  unfold fmod
  rw [Int.fract, mul_sub, mul_div_cancel₀ v hp]

theorem fmod_nonneg (v p : ℝ) (hp : 0 < p) : 0 ≤ fmod v p := by
  rw [fmod_eq_mul_fract v p hp.ne.symm]
  exact mul_nonneg hp.le (Int.fract_nonneg _)

theorem fmod_lt (v p : ℝ) (hp : 0 < p) : fmod v p < p := by
  rw [fmod_eq_mul_fract v p hp.ne.symm]
  calc p * Int.fract (v / p) < p * 1 := by
        exact (mul_lt_mul_left hp).mpr (Int.fract_lt_one _)
    _ = p := mul_one p

theorem fmod_add_int_mul (v p : ℝ) (k : ℤ) : fmod (v + p * k) p = fmod v p := by
  by_cases hp : p = 0
  · simp [fmod, hp]
  · have h : (v + p * k) / p = v / p + k := by field_simp; ring
    unfold fmod
    rw [h, Int.floor_add_int]
    push_cast
    ring

theorem mirror_fold_add_int_mul (v p : ℝ) (k : ℤ) :
    mirror_fold (v + p * k) p = mirror_fold v p := by
  unfold mirror_fold
  rw [fmod_add_int_mul]

theorem fmod_eq_zero_neg (v p : ℝ) (hp : p ≠ 0) (h : fmod v p = 0) :
    fmod (-v) p = 0 := by
  rw [fmod_eq_mul_fract v p hp] at h
  rw [fmod_eq_mul_fract _ p hp, neg_div]
  rcases mul_eq_zero.mp h with h0 | h0
  · exact absurd h0 hp
  · rw [Int.fract_neg_eq_zero.mpr h0, mul_zero]

theorem fmod_neg_of_ne_zero (v p : ℝ) (hp : p ≠ 0) (h : fmod v p ≠ 0) :
    fmod (-v) p = p - fmod v p := by
  rw [fmod_eq_mul_fract v p hp] at h ⊢
  rw [fmod_eq_mul_fract _ p hp, neg_div]
  have hf : Int.fract (v / p) ≠ 0 := by
    intro h0
    exact h (by rw [h0, mul_zero])
  rw [Int.fract_neg hf]
  ring

theorem mirror_fold_neg (v p : ℝ) (hp : 0 < p) :
    mirror_fold (-v) p = mirror_fold v p := by
  by_cases h : fmod v p = 0
  · unfold mirror_fold
    rw [h, fmod_eq_zero_neg v p hp.ne.symm h]
  · have h2 := fmod_neg_of_ne_zero v p hp.ne.symm h
    have h3 := fmod_nonneg v p hp
    have h4 := fmod_lt v p hp
    unfold mirror_fold
    rw [h2]
    have half : (0.5 : ℝ) = 1 / 2 := by norm_num
    dsimp only
    split_ifs with h5 h6 h6 <;> rw [half] at * <;> linarith

/-- C4: for every real v and every period p > 0 the triangle-wave fold
_mirror_fold returns a value in the closed interval [0, p/2], and with
m = v mod p the result is m when m ≤ p/2 and p - m otherwise.  This single
primitive is the one called by apply_rectangle, apply_triangle_45 and
apply_triangle_30_60 below. -/
theorem c4_mirror_fold_range (v p : ℝ) (hp : 0 < p) :
    (0 ≤ mirror_fold v p ∧ mirror_fold v p ≤ p / 2) ∧
      (fmod v p ≤ p / 2 → mirror_fold v p = fmod v p) ∧
      (p / 2 < fmod v p → mirror_fold v p = p - fmod v p) := by
  have h3 := fmod_nonneg v p hp
  have h4 := fmod_lt v p hp
  have half : (0.5 : ℝ) = 1 / 2 := by norm_num
  unfold mirror_fold
  dsimp only
  split_ifs with h5 <;> rw [half] at h5 <;>
    refine ⟨⟨by linarith, by linarith⟩, fun h6 => by linarith, fun h6 => by linarith⟩

/-- Witness for C4 at v = 5, p = 2. -/
theorem c4_mirror_fold_range_witness :
    0 ≤ mirror_fold 5 2 ∧ mirror_fold 5 2 ≤ 2 / 2 :=
  (c4_mirror_fold_range 5 2 (by norm_num)).1

/- Sampler index bounds. -/

theorem sample_lo_nonneg (dim : ℕ) (hd : 2 ≤ dim) (s : ℝ) : 0 ≤ sample_lo dim s := by
  unfold sample_lo clip
  rw [Int.le_floor]
  push_cast
  refine le_min (le_max_right s 0) ?_
  have : (2 : ℝ) ≤ (dim : ℝ) := by exact_mod_cast hd
  norm_num
  linarith

theorem sample_lo_lt (dim : ℕ) (_hd : 2 ≤ dim) (s : ℝ) : sample_lo dim s < (dim : ℤ) := by
  unfold sample_lo clip
  rw [Int.floor_lt]
  push_cast
  calc min (max s 0) ((dim : ℝ) - 1.001) ≤ (dim : ℝ) - 1.001 := min_le_right _ _
    _ < (dim : ℝ) := by norm_num

theorem sample_hi_nonneg (dim : ℕ) (hd : 2 ≤ dim) (s : ℝ) : 0 ≤ sample_hi dim s := by
  unfold sample_hi clipZ
  refine le_min (le_max_right _ 0) ?_
  omega

theorem sample_hi_lt (dim : ℕ) (_hd : 2 ≤ dim) (s : ℝ) : sample_hi dim s < (dim : ℤ) := by
  unfold sample_hi clipZ
  have : min (max (sample_lo dim s + 1) 0) ((dim : ℤ) - 1) ≤ (dim : ℤ) - 1 :=
    min_le_right _ _
  omega

/-- C2 (amended): for every source with width and height at least 2 and all
real sampling coordinates, including coordinates far outside the source, the
four neighbour indices of the bilinear sampler lie inside
[0, src_w) × [0, src_h), and the sampled output depends only on source pixels
at in-range indices (two sources agreeing there sample identically), so every
output pixel is a blend of four in-range neighbour pixels.  The original
claim with width or height 1 is refuted by c2_width_one_counterexample. -/
theorem c2_sampler_in_range (w h : ℕ) (hw : 2 ≤ w) (hh : 2 ≤ h) (sx sy : ℝ) :
    (0 ≤ sample_lo w sx ∧ sample_lo w sx < (w : ℤ) ∧
      0 ≤ sample_hi w sx ∧ sample_hi w sx < (w : ℤ)) ∧
    (0 ≤ sample_lo h sy ∧ sample_lo h sy < (h : ℤ) ∧
      0 ≤ sample_hi h sy ∧ sample_hi h sy < (h : ℤ)) ∧
    (∀ (src srcB : ℤ → ℤ → ℕ → ℕ),
      (∀ (yy xx : ℤ) (ch : ℕ), 0 ≤ xx → xx < (w : ℤ) → 0 ≤ yy → yy < (h : ℤ) →
        src yy xx ch = srcB yy xx ch) →
      ∀ ch, bilinear_sample src sx sy w h ch = bilinear_sample srcB sx sy w h ch) := by
  refine ⟨⟨sample_lo_nonneg w hw sx, sample_lo_lt w hw sx,
      sample_hi_nonneg w hw sx, sample_hi_lt w hw sx⟩,
    ⟨sample_lo_nonneg h hh sy, sample_lo_lt h hh sy,
      sample_hi_nonneg h hh sy, sample_hi_lt h hh sy⟩, ?_⟩
  intro src srcB hagree ch
  unfold bilinear_sample
  dsimp only
  rw [hagree _ _ ch (sample_lo_nonneg w hw sx) (sample_lo_lt w hw sx)
      (sample_lo_nonneg h hh sy) (sample_lo_lt h hh sy),
    hagree _ _ ch (sample_hi_nonneg w hw sx) (sample_hi_lt w hw sx)
      (sample_lo_nonneg h hh sy) (sample_lo_lt h hh sy),
    hagree _ _ ch (sample_lo_nonneg w hw sx) (sample_lo_lt w hw sx)
      (sample_hi_nonneg h hh sy) (sample_hi_lt h hh sy),
    hagree _ _ ch (sample_hi_nonneg w hw sx) (sample_hi_lt w hw sx)
      (sample_hi_nonneg h hh sy) (sample_hi_lt h hh sy)]

/-- Witness for C2 at w = h = 2, sx = sy = 0. -/
theorem c2_sampler_in_range_witness :
    0 ≤ sample_lo 2 (0 : ℝ) ∧ sample_lo 2 (0 : ℝ) < (2 : ℤ) ∧
      0 ≤ sample_hi 2 (0 : ℝ) ∧ sample_hi 2 (0 : ℝ) < (2 : ℤ) :=
  (c2_sampler_in_range 2 2 (le_refl 2) (le_refl 2) 0 0).1

/-- Counterexample to C2 as stated: for a source of width 1 the clamp upper
bound src_w - 1.001 is negative, the clamped coordinate is -0.001, and the
floor index x0 is -1 — a negative (wrapping) index outside [0, src_w). -/
theorem c2_width_one_counterexample : sample_lo 1 (5 : ℝ) = -1 := by
  unfold sample_lo clip
  have h1 : ((1 : ℕ) : ℝ) - 1.001 = -0.001 := by norm_num
  have h2 : min (max (5 : ℝ) 0) (-0.001) = -0.001 := by
    rw [max_eq_left (by norm_num : (0 : ℝ) ≤ 5)]
    exact min_eq_right (by norm_num)
  rw [h1, h2]
  rw [Int.floor_eq_iff]
  constructor <;> push_cast <;> norm_num

/-- C5: in the Triangle60 fold, whenever the lattice fractional parts satisfy
u_frac + v_frac ≥ 1 before folding, the fold applies the reflection sending
(u, v) to (1 - v, 1 - u), and the folded pair sums to at most 1 (the point
lands in the complementary lower triangle of the unit parallelogram). -/
theorem c5_triangle60_upper_fold (u v : ℝ) (h : 1 ≤ Int.fract u + Int.fract v) :
    tri60_fold u v = (1 - Int.fract v, 1 - Int.fract u) ∧
      (tri60_fold u v).1 + (tri60_fold u v).2 ≤ 1 := by
  have e : tri60_fold u v = (1 - Int.fract v, 1 - Int.fract u) := by
    unfold tri60_fold
    dsimp only
    rw [if_pos (show (1 : ℝ) ≤ u - (⌊u⌋ : ℤ) + (v - (⌊v⌋ : ℤ)) from h)]
    rfl
  refine ⟨e, ?_⟩
  rw [e]
  dsimp only
  linarith

/-- Witness for C5 at u = v = 3/4. -/
theorem c5_triangle60_upper_fold_witness :
    (tri60_fold (3 / 4 : ℝ) (3 / 4)).1 + (tri60_fold (3 / 4 : ℝ) (3 / 4)).2 ≤ 1 := by
  have hf : Int.fract (3 / 4 : ℝ) = 3 / 4 :=
    Int.fract_eq_self.mpr ⟨by norm_num, by norm_num⟩
  exact (c5_triangle60_upper_fold (3 / 4) (3 / 4) (by rw [hf]; norm_num)).2

/-- C9: for every render job, the worker trace is one of: empty (no source),
compute followed by a single error emission (the engine raised), or compute
followed by exactly one read of the cancellation flag and then the result
emission if and only if the flag was clear at that single post-compute check;
in particular a job whose flag is set at the check delivers no result, and
the flag is never read before or during the compute call. -/
theorem c9_cancellation_once (s : Option Buffer) (p : Params)
    (o : Option (ℕ × ℕ)) (flag : Bool) :
    (∀ img, flag = true → TEvent.emitResult img ∉ worker_trace s p o flag) ∧
    (worker_trace s p o flag = [] ∨
      (∃ e, worker_trace s p o flag = [TEvent.computeCall, TEvent.emitError e]) ∨
      (∃ img, worker_trace s p o flag =
        TEvent.computeCall :: TEvent.checkCancel flag ::
          (if flag then [] else [TEvent.emitResult img]))) := by
  constructor
  · intro img hf
    subst hf
    cases s with
    | none => simp [worker_trace]
    | some src =>
      cases hc : worker_compute src p o with
      | error e => simp [worker_trace, hc]
      | ok im => simp [worker_trace, hc]
  · cases s with
    | none => exact Or.inl rfl
    | some src =>
      cases hc : worker_compute src p o with
      | error e => exact Or.inr (Or.inl ⟨e, by simp [worker_trace, hc]⟩)
      | ok im => exact Or.inr (Or.inr ⟨im, by simp [worker_trace, hc]⟩)

/-- Witness for C9: a cancelled radial job with a configured source emits no
result. -/
theorem c9_cancellation_once_witness :
    TEvent.emitResult ⟨2, 2, 3, fun _ _ _ => 0⟩ ∉
      worker_trace (some ⟨2, 2, 3, fun _ _ _ => 0⟩)
        (current_params "radial" 8 100 0 100 500 500) none true :=
  (c9_cancellation_once (some ⟨2, 2, 3, fun _ _ _ => 0⟩)
    (current_params "radial" 8 100 0 100 500 500) none true).1
    ⟨2, 2, 3, fun _ _ _ => 0⟩ rfl

/-- C1 (refuting theorem): the worker of worker.py never dispatches on the
mode of its job — it always calls apply_kaleidoscope with a strict lookup of
num_segments — so a rectangle-mode job built by MainWindow._current_params
(whose dictionary has no num_segments key) raises KeyError inside the compute
expression and emits an error instead of a rectangle result, even though the
job was never cancelled. -/
theorem c1_worker_ignores_mode :
    worker_trace (some ⟨4, 4, 3, fun _ _ _ => 0⟩)
        (current_params "rectangle" 50 100 0 100 500 500) (some (4, 4)) false =
      [TEvent.computeCall, TEvent.emitError "KeyError: num_segments"] := by
  rfl

/- Rectangle-mode helpers for the mirror-symmetry claim. -/

theorem rotate_zero (dx dy : ℝ) : rotate dx dy 0 = (dx, dy) := if_pos rfl

/-- Sampling expression of one output pixel of apply_rectangle at the claimed
parameters: tile_size_pct 100, tile_aspect 1, rotation 0, zoom 1, centre
50 % / 50 %, output size equal to the source size. -/
theorem apply_rectangle_pix (src : Buffer) (x y : ℤ) (ch : ℕ) :
    (apply_rectangle src 100 1 0 1 50 50 none).pix y x ch =
      bilinear_sample src.pix
        ((src.w : ℝ) / 2 + mirror_fold ((x : ℝ) - (src.w : ℝ) / 2)
          ((min src.w src.h : ℕ) : ℝ))
        ((src.h : ℝ) / 2 + mirror_fold ((y : ℝ) - (src.h : ℝ) / 2)
          ((min src.w src.h : ℕ) : ℝ))
        src.w src.h ch := by
  simp only [apply_rectangle, common_offset, rotate_zero, out_dims,
    Option.getD_none, src_center]
  norm_num
  rw [show (1 : ℝ) / 2 * (src.w : ℝ) = (src.w : ℝ) / 2 by ring,
    show (1 : ℝ) / 2 * (src.h : ℝ) = (src.h : ℝ) / 2 by ring]

theorem fold_mirror_arg (Tr nr u : ℝ) (hT : 0 < Tr) (k : ℤ) (hk : nr = Tr * k) :
    mirror_fold (Tr - u - nr / 2) Tr = mirror_fold (u - nr / 2) Tr := by
  have e : Tr - u - nr / 2 = -(u - nr / 2) + Tr * ((1 - k : ℤ) : ℝ) := by
    push_cast
    rw [hk]
    ring
  rw [e, mirror_fold_add_int_mul, mirror_fold_neg _ _ hT]

/-- C3 (amended): for rectangle mode with tile_size_pct 100, tile_aspect 1
and default shared parameters on a source whose smaller dimension divides
both dimensions (in particular any square source), with output size equal to
the source size, the output pixel at (x, y) equals the output pixel at
(tile_w - x, y) and at (x, tile_h - y) exactly, for x, y within one tile,
where tile_w = tile_h = min (W, H).  For sources where min (W, H) does not
divide both dimensions the original claim fails, see
c3_nonsquare_counterexample. -/
theorem c3_rectangle_mirror_symmetry (src : Buffer) (hw : 1 ≤ src.w)
    (hh : 1 ≤ src.h) (hdw : min src.w src.h ∣ src.w) (hdh : min src.w src.h ∣ src.h)
    (x y : ℤ) (ch : ℕ) (_hx0 : 0 ≤ x) (_hxT : x ≤ ((min src.w src.h : ℕ) : ℤ))
    (_hy0 : 0 ≤ y) (_hyT : y ≤ ((min src.w src.h : ℕ) : ℤ)) :
    (apply_rectangle src 100 1 0 1 50 50 none).pix y x ch =
        (apply_rectangle src 100 1 0 1 50 50 none).pix y
          (((min src.w src.h : ℕ) : ℤ) - x) ch ∧
      (apply_rectangle src 100 1 0 1 50 50 none).pix y x ch =
        (apply_rectangle src 100 1 0 1 50 50 none).pix
          (((min src.w src.h : ℕ) : ℤ) - y) x ch := by
  obtain ⟨kw, hkw⟩ := hdw
  obtain ⟨kh, hkh⟩ := hdh
  have hTpos : (0 : ℝ) < ((min src.w src.h : ℕ) : ℝ) := by
    have h1 : 0 < min src.w src.h := lt_of_lt_of_le zero_lt_one (le_min hw hh)
    exact_mod_cast h1
  constructor
  · rw [apply_rectangle_pix, apply_rectangle_pix]
    rw [show ((((min src.w src.h : ℕ) : ℤ) - x : ℤ) : ℝ) =
        ((min src.w src.h : ℕ) : ℝ) - (x : ℝ) by push_cast; ring]
    rw [fold_mirror_arg _ _ _ hTpos kw (by exact_mod_cast hkw)]
  · rw [apply_rectangle_pix, apply_rectangle_pix]
    rw [show ((((min src.w src.h : ℕ) : ℤ) - y : ℤ) : ℝ) =
        ((min src.w src.h : ℕ) : ℝ) - (y : ℝ) by push_cast; ring]
    rw [fold_mirror_arg _ _ _ hTpos kh (by exact_mod_cast hkh)]

/-- Witness for C3 on a 4 × 4 square source at x = y = 1. -/
theorem c3_rectangle_mirror_symmetry_witness :
    (apply_rectangle ⟨4, 4, 1, fun _ _ _ => 0⟩ 100 1 0 1 50 50 none).pix 1 1 0 =
      (apply_rectangle ⟨4, 4, 1, fun _ _ _ => 0⟩ 100 1 0 1 50 50 none).pix 1
        (((min 4 4 : ℕ) : ℤ) - 1) 0 :=
  (c3_rectangle_mirror_symmetry ⟨4, 4, 1, fun _ _ _ => 0⟩ (by norm_num) (by norm_num)
    (by norm_num) (by norm_num) 1 1 0 (by norm_num) (by norm_num) (by norm_num)
    (by norm_num)).1

/- Radial-mode refinement helpers. -/

theorem atan2_rotate_fmod (a b rho zoom : ℝ) (hz : 0 < zoom)
    (h0 : ¬(a = 0 ∧ b = 0)) :
    fmod (atan2 (a / zoom * Real.sin rho + b / zoom * Real.cos rho)
        (a / zoom * Real.cos rho - b / zoom * Real.sin rho)) (2 * π) =
      fmod (atan2 b a + rho) (2 * π) := by
  have hzc : (⟨a, b⟩ : ℂ) ≠ 0 := by
    intro h
    apply h0
    constructor
    · have := congrArg Complex.re h
      simpa using this
    · have := congrArg Complex.im h
      simpa using this
  have key : (⟨a / zoom * Real.cos rho - b / zoom * Real.sin rho,
      a / zoom * Real.sin rho + b / zoom * Real.cos rho⟩ : ℂ) =
      (⟨Real.cos rho, Real.sin rho⟩ : ℂ) * (((zoom⁻¹ : ℝ) : ℂ) * ⟨a, b⟩) := by
    apply Complex.ext
    · simp [Complex.mul_re, Complex.mul_im]
      ring
    · simp [Complex.mul_re, Complex.mul_im]
      ring
  have hunit : (⟨Real.cos rho, Real.sin rho⟩ : ℂ) ≠ 0 := by
    intro h
    have h1 := congrArg Complex.re h
    have h2 := congrArg Complex.im h
    simp at h1 h2
    nlinarith [Real.sin_sq_add_cos_sq rho]
  have hz2 : (((zoom⁻¹ : ℝ) : ℂ) * (⟨a, b⟩ : ℂ)) ≠ 0 :=
    mul_ne_zero (Complex.ofReal_ne_zero.mpr (inv_ne_zero hz.ne.symm)) hzc
  have hu : ((Complex.arg ⟨Real.cos rho, Real.sin rho⟩ : ℝ) : Real.Angle) =
      (rho : Real.Angle) := by
    have h3 := Complex.arg_cos_add_sin_mul_I_coe_angle (rho : Real.Angle)
    rw [Real.Angle.cos_coe, Real.Angle.sin_coe] at h3
    rw [Complex.mk_eq_add_mul_I]
    exact h3
  have hangle : ((Complex.arg ⟨a / zoom * Real.cos rho - b / zoom * Real.sin rho,
      a / zoom * Real.sin rho + b / zoom * Real.cos rho⟩ : ℝ) : Real.Angle) =
      ((Complex.arg ⟨a, b⟩ + rho : ℝ) : Real.Angle) := by
    rw [key, Complex.arg_mul_coe_angle hunit hz2,
      Complex.arg_real_mul _ (inv_pos.mpr hz), hu, Real.Angle.coe_add, add_comm]
  rw [Real.Angle.angle_eq_iff_two_pi_dvd_sub] at hangle
  obtain ⟨k, hk⟩ := hangle
  unfold atan2
  rw [show Complex.arg ⟨a / zoom * Real.cos rho - b / zoom * Real.sin rho,
      a / zoom * Real.sin rho + b / zoom * Real.cos rho⟩ =
      Complex.arg ⟨a, b⟩ + rho + 2 * π * (k : ℤ) from by linarith]
  exact fmod_add_int_mul _ _ _

/-- C6: over exact real arithmetic with zoom > 0, the radial implementation
of apply_kaleidoscope — polar coordinates of the raw centred offsets, the
rotation angle added to θ before the wedge fold, and the radius divided by
zoom only in the map back to Cartesian — is extensionally equal to the
pipeline the common setup of the specification prescribes for every mode:
divide the centred offsets by zoom, rotate them by rotation_deg, then apply
the polar wedge fold. -/
theorem c6_radial_refinement (src_w src_h : ℕ)
    (num_segments rotation_deg zoom center_x_pct center_y_pct : ℝ)
    (hz : 0 < zoom) (out_w out_h : ℕ) (x y : ℤ) :
    radial_sample src_w src_h num_segments rotation_deg zoom center_x_pct
        center_y_pct out_w out_h x y =
      spec_radial_sample src_w src_h num_segments rotation_deg zoom center_x_pct
        center_y_pct out_w out_h x y := by
  unfold radial_sample spec_radial_sample
  dsimp only
  generalize (x : ℝ) - (out_w : ℝ) / 2 = a
  generalize (y : ℝ) - (out_h : ℝ) / 2 = b
  generalize rotation_deg * π / 180 = rho
  generalize center_x_pct / 100 * (src_w : ℝ) = cxs
  generalize center_y_pct / 100 * (src_h : ℝ) = cys
  generalize 2 * π / num_segments = segA
  by_cases h0 : a = 0 ∧ b = 0
  · obtain ⟨ha, hb⟩ := h0
    subst ha
    subst hb
    simp
  · have hr : Real.sqrt
        ((a / zoom * Real.cos rho - b / zoom * Real.sin rho) *
            (a / zoom * Real.cos rho - b / zoom * Real.sin rho) +
          (a / zoom * Real.sin rho + b / zoom * Real.cos rho) *
            (a / zoom * Real.sin rho + b / zoom * Real.cos rho)) =
        Real.sqrt (a * a + b * b) / zoom := by
      have h2 : (a / zoom * Real.cos rho - b / zoom * Real.sin rho) *
            (a / zoom * Real.cos rho - b / zoom * Real.sin rho) +
          (a / zoom * Real.sin rho + b / zoom * Real.cos rho) *
            (a / zoom * Real.sin rho + b / zoom * Real.cos rho) =
          (a * a + b * b) / zoom ^ 2 := by
        linear_combination ((a * a + b * b) / zoom ^ 2) * Real.sin_sq_add_cos_sq rho
      rw [h2, Real.sqrt_div (add_nonneg (mul_self_nonneg a) (mul_self_nonneg b))
        (zoom ^ 2), Real.sqrt_sq hz.le]
    have ht := atan2_rotate_fmod a b rho zoom hz h0
    rw [hr, ht]

/-- Witness for C6 at a concrete pixel with zoom 1. -/
theorem c6_radial_refinement_witness :
    radial_sample 4 4 4 0 1 50 50 4 4 1 2 = spec_radial_sample 4 4 4 0 1 50 50 4 4 1 2 :=
  c6_radial_refinement 4 4 4 0 1 50 50 (by norm_num) 4 4 1 2

/-- Counterexample to C3 as stated: on a 5 × 7 source (H = 5, W = 7, so
tile_w = min (W, H) = 5 does not divide W) whose pixels are 255 in column 6
and 0 elsewhere, the rectangle-mode output with the claimed parameters has
value 254 at (x, y) = (1, 2) but value 0 at (tile_w - x, y) = (4, 2): the
claimed mirror symmetry in x fails by far more than rounding. -/
theorem c3_nonsquare_counterexample :
    ¬ ((apply_rectangle ⟨5, 7, 1, fun _ x _ => if x = 6 then 255 else 0⟩
          100 1 0 1 50 50 none).pix 2 1 0 =
        (apply_rectangle ⟨5, 7, 1, fun _ x _ => if x = 6 then 255 else 0⟩
          100 1 0 1 50 50 none).pix 2 (((min 7 5 : ℕ) : ℤ) - 1) 0) := by
  have fold_a : mirror_fold (-(5 / 2) : ℝ) 5 = 5 / 2 := by
    have hfl : ⌊(-(5 / 2) : ℝ) / 5⌋ = -1 := by
      rw [Int.floor_eq_iff]
      push_cast
      norm_num
    unfold mirror_fold fmod
    rw [hfl]
    norm_num
  have fold_b : mirror_fold (-(1 / 2) : ℝ) 5 = 1 / 2 := by
    have hfl : ⌊(-(1 / 2) : ℝ) / 5⌋ = -1 := by
      rw [Int.floor_eq_iff]
      push_cast
      norm_num
    unfold mirror_fold fmod
    rw [hfl]
    norm_num
  have fold_c : mirror_fold (1 / 2 : ℝ) 5 = 1 / 2 := by
    have hfl : ⌊(1 / 2 : ℝ) / 5⌋ = 0 := by
      rw [Int.floor_eq_iff]
      push_cast
      norm_num
    unfold mirror_fold fmod
    rw [hfl]
    norm_num
  have slo7 : sample_lo 7 (6 : ℝ) = 5 := by
    unfold sample_lo clip
    rw [max_eq_left (by norm_num : (0 : ℝ) ≤ 6)]
    rw [min_eq_right (by norm_num : ((7 : ℕ) : ℝ) - 1.001 ≤ 6)]
    rw [Int.floor_eq_iff]
    push_cast
    norm_num
  have shi7 : sample_hi 7 (6 : ℝ) = 6 := by
    unfold sample_hi clipZ
    rw [slo7]
    decide
  have sfr7 : sample_frac 7 (6 : ℝ) = 999 / 1000 := by
    unfold sample_frac clip
    rw [max_eq_left (by norm_num : (0 : ℝ) ≤ 6)]
    rw [min_eq_right (by norm_num : ((7 : ℕ) : ℝ) - 1.001 ≤ 6)]
    rw [slo7]
    push_cast
    norm_num
  have slo5 : sample_lo 5 (3 : ℝ) = 3 := by
    unfold sample_lo clip
    rw [max_eq_left (by norm_num : (0 : ℝ) ≤ 3)]
    rw [min_eq_left (by norm_num : (3 : ℝ) ≤ ((5 : ℕ) : ℝ) - 1.001)]
    rw [Int.floor_eq_iff]
    push_cast
    norm_num
  have sfr5 : sample_frac 5 (3 : ℝ) = 0 := by
    unfold sample_frac clip
    rw [max_eq_left (by norm_num : (0 : ℝ) ≤ 3)]
    rw [min_eq_left (by norm_num : (3 : ℝ) ≤ ((5 : ℕ) : ℝ) - 1.001)]
    rw [slo5]
    push_cast
    norm_num
  have slo74 : sample_lo 7 (4 : ℝ) = 4 := by
    unfold sample_lo clip
    rw [max_eq_left (by norm_num : (0 : ℝ) ≤ 4)]
    rw [min_eq_left (by norm_num : (4 : ℝ) ≤ ((7 : ℕ) : ℝ) - 1.001)]
    rw [Int.floor_eq_iff]
    push_cast
    norm_num
  have shi74 : sample_hi 7 (4 : ℝ) = 5 := by
    unfold sample_hi clipZ
    rw [slo74]
    decide
  have sfr74 : sample_frac 7 (4 : ℝ) = 0 := by
    unfold sample_frac clip
    rw [max_eq_left (by norm_num : (0 : ℝ) ≤ 4)]
    rw [min_eq_left (by norm_num : (4 : ℝ) ≤ ((7 : ℕ) : ℝ) - 1.001)]
    rw [slo74]
    push_cast
    norm_num
  have e1 : (apply_rectangle ⟨5, 7, 1, fun _ x _ => if x = 6 then 255 else 0⟩
      100 1 0 1 50 50 none).pix 2 1 0 = 254 := by
    rw [apply_rectangle_pix]
    norm_num
    rw [fold_a, fold_b]
    norm_num
    unfold bilinear_sample
    dsimp only
    rw [slo7, shi7, sfr7, sfr5]
    norm_num
    unfold toByte
    have hfl : ⌊(50949 / 200 : ℝ)⌋ = 254 := by
      rw [Int.floor_eq_iff]
      push_cast
      norm_num
    rw [hfl]
    rfl
  have e2 : (apply_rectangle ⟨5, 7, 1, fun _ x _ => if x = 6 then 255 else 0⟩
      100 1 0 1 50 50 none).pix 2 4 0 = 0 := by
    rw [apply_rectangle_pix]
    norm_num
    rw [fold_c, fold_b]
    norm_num
    unfold bilinear_sample
    dsimp only
    rw [slo74, shi74, sfr74, sfr5]
    norm_num
    unfold toByte
    norm_num
  intro h
  rw [show (((min 7 5 : ℕ) : ℤ) - 1) = 4 by decide] at h
  rw [e1, e2] at h
  exact absurd h (by norm_num)

/-- C7: for every known mode tag and all parameters, apply_effect succeeds
with a buffer whose width and height equal the requested output size — the
source dimensions when the output size is absent — and whose channel count
equals the channel count of the source buffer. -/
theorem c7_output_dims (mode : String) (src : Buffer) (params : Params)
    (o : Option (ℕ × ℕ)) (hm : mode ∈ MODES.map Prod.fst) :
    ∃ buf, apply_effect mode src params o = Except.ok buf ∧
      buf.w = (out_dims src o).1 ∧ buf.h = (out_dims src o).2 ∧ buf.c = src.c := by
  simp only [List.map_cons, MODES, List.map_nil, List.mem_cons,
    List.not_mem_nil, or_false] at hm
  rcases hm with h | h | h | h | h <;> subst h <;> exact ⟨_, rfl, rfl, rfl, rfl⟩

/-- Witness for C7: the triangle_45 mode on a 3 × 4 source with requested
output size 7 × 9. -/
theorem c7_output_dims_witness :
    ∃ buf, apply_effect "triangle_45" ⟨3, 4, 3, fun _ _ _ => 0⟩ [] (some (7, 9)) =
        Except.ok buf ∧
      buf.w = (out_dims ⟨3, 4, 3, fun _ _ _ => 0⟩ (some (7, 9))).1 ∧
      buf.h = (out_dims ⟨3, 4, 3, fun _ _ _ => 0⟩ (some (7, 9))).2 ∧
      buf.c = Buffer.c ⟨3, 4, 3, fun _ _ _ => 0⟩ :=
  c7_output_dims "triangle_45" ⟨3, 4, 3, fun _ _ _ => 0⟩ [] (some (7, 9)) (by simp [List.mem_map, MODES])

/-- C8: apply_effect produces an error exactly when the mode tag is not one
of the five tags registered in MODES — an unknown tag is never silently
defaulted to any transform — and for each known tag the dispatcher selects
that tag's transform function with the parameter subset that tag requires. -/
theorem c8_dispatch (mode : String) (src : Buffer) (params : Params)
    (o : Option (ℕ × ℕ)) :
    ((∃ e, apply_effect mode src params o = Except.error e) ↔
      mode ∉ MODES.map Prod.fst) ∧
    (apply_effect "radial" src params o = Except.ok
      (apply_kaleidoscope src ((pgetNum params "num_segments").getD 8)
        ((pgetNum params "rotation_deg").getD 0) ((pgetNum params "zoom").getD 1)
        ((pgetNum params "center_x_pct").getD 50)
        ((pgetNum params "center_y_pct").getD 50) o)) ∧
    (apply_effect "rectangle" src params o = Except.ok
      (apply_rectangle src ((pgetNum params "tile_size_pct").getD 50)
        ((pgetNum params "tile_aspect").getD 1)
        ((pgetNum params "rotation_deg").getD 0) ((pgetNum params "zoom").getD 1)
        ((pgetNum params "center_x_pct").getD 50)
        ((pgetNum params "center_y_pct").getD 50) o)) ∧
    (apply_effect "triangle_45" src params o = Except.ok
      (apply_triangle_45 src ((pgetNum params "tile_size_pct").getD 50)
        ((pgetNum params "rotation_deg").getD 0) ((pgetNum params "zoom").getD 1)
        ((pgetNum params "center_x_pct").getD 50)
        ((pgetNum params "center_y_pct").getD 50) o)) ∧
    (apply_effect "triangle_60" src params o = Except.ok
      (apply_triangle_60 src ((pgetNum params "tile_size_pct").getD 50)
        ((pgetNum params "rotation_deg").getD 0) ((pgetNum params "zoom").getD 1)
        ((pgetNum params "center_x_pct").getD 50)
        ((pgetNum params "center_y_pct").getD 50) o)) ∧
    (apply_effect "triangle_30_60" src params o = Except.ok
      (apply_triangle_30_60 src ((pgetNum params "tile_size_pct").getD 50)
        ((pgetNum params "rotation_deg").getD 0) ((pgetNum params "zoom").getD 1)
        ((pgetNum params "center_x_pct").getD 50)
        ((pgetNum params "center_y_pct").getD 50) o)) := by
  refine ⟨⟨?_, ?_⟩, rfl, rfl, rfl, rfl, rfl⟩
  · rintro ⟨e, he⟩ hmem
    simp only [List.map_cons, MODES, List.map_nil, List.mem_cons,
      List.not_mem_nil, or_false] at hmem
    rcases hmem with h | h | h | h | h <;> subst h <;> simp [apply_effect] at he
  · intro hnot
    simp only [List.map_cons, MODES, List.map_nil, List.mem_cons,
      List.not_mem_nil, or_false, not_or] at hnot
    exact ⟨String.append "Unknown mode: " mode,
      by simp [apply_effect, hnot.1, hnot.2.1, hnot.2.2.1, hnot.2.2.2.1, hnot.2.2.2.2]⟩

/-- Witness for C8: an unknown tag is rejected with an error. -/
theorem c8_dispatch_witness :
    ∃ e, apply_effect "swirl" ⟨1, 1, 3, fun _ _ _ => 0⟩ [] none = Except.error e :=
  (c8_dispatch "swirl" ⟨1, 1, 3, fun _ _ _ => 0⟩ [] none).1.mpr (by simp [List.mem_map, MODES])

/-- C10: for every known mode, apply_effect never fails on a missing
parameter key — each absent key among rotation_deg, zoom, center_x_pct,
center_y_pct, num_segments, tile_size_pct, tile_aspect is silently replaced
by its fixed default (0, 1, 50, 50, 8, 50, 1 respectively) — and the result
equals applying the same mode with those defaults filled in explicitly. -/
theorem c10_missing_params_defaulted (mode : String) (src : Buffer)
    (params : Params) (o : Option (ℕ × ℕ)) (hm : mode ∈ MODES.map Prod.fst) :
    apply_effect mode src params o =
        apply_effect mode src (with_defaults params) o ∧
      ∃ buf, apply_effect mode src params o = Except.ok buf := by
  have l1 : pgetNum (with_defaults params) "rotation_deg" =
      some ((pgetNum params "rotation_deg").getD 0) := rfl
  have l2 : pgetNum (with_defaults params) "zoom" =
      some ((pgetNum params "zoom").getD 1) := rfl
  have l3 : pgetNum (with_defaults params) "center_x_pct" =
      some ((pgetNum params "center_x_pct").getD 50) := rfl
  have l4 : pgetNum (with_defaults params) "center_y_pct" =
      some ((pgetNum params "center_y_pct").getD 50) := rfl
  have l5 : pgetNum (with_defaults params) "num_segments" =
      some ((pgetNum params "num_segments").getD 8) := rfl
  have l6 : pgetNum (with_defaults params) "tile_size_pct" =
      some ((pgetNum params "tile_size_pct").getD 50) := rfl
  have l7 : pgetNum (with_defaults params) "tile_aspect" =
      some ((pgetNum params "tile_aspect").getD 1) := rfl
  simp only [List.map_cons, MODES, List.map_nil, List.mem_cons,
    List.not_mem_nil, or_false] at hm
  rcases hm with h | h | h | h | h <;> subst h <;>
    exact ⟨by simp [apply_effect, l1, l2, l3, l4, l5, l6, l7], _, rfl⟩

/-- Witness for C10: the triangle_60 mode with an empty parameter dictionary. -/
theorem c10_missing_params_defaulted_witness :
    apply_effect "triangle_60" ⟨2, 2, 4, fun _ _ _ => 0⟩ [] none =
      apply_effect "triangle_60" ⟨2, 2, 4, fun _ _ _ => 0⟩ (with_defaults []) none :=
  (c10_missing_params_defaulted "triangle_60" ⟨2, 2, 4, fun _ _ _ => 0⟩ [] none
    (by simp [List.mem_map, MODES])).1

end Kaleidoscope
